import Mathlib

/-!
Verification of the rovelink RF benchmark protocol code.

Bytes are modelled as natural numbers below 256 and byte strings as
`List ℕ`.  Each definition is a shallow embedding of the Python function
named in its doc comment (files `xbee_benchmark.py` and
`rf_latency_test.py`).  External collaborators (the serial port, the
clock) are passed in as explicit parameters or oracles.
-/

/-- Start marker `b'$$'` of the wire format (`xbee_benchmark.py`). -/
def MARKER_START : List ℕ := [36, 36]

/-- End marker `b'##'` of the wire format (`xbee_benchmark.py`). -/
def MARKER_END : List ℕ := [35, 35]

/-- Message type tag `b'PING'`. -/
def MSG_PING : List ℕ := [80, 73, 78, 71]

/-- Message type tag `b'PONG'`. -/
def MSG_PONG : List ℕ := [80, 79, 78, 71]

/-- Message type tag `b'DATA'`. -/
def MSG_DATA : List ℕ := [68, 65, 84, 65]

/-- Message type tag `b'SYNC'`. -/
def MSG_SYNC : List ℕ := [83, 89, 78, 67]

/-- Message type tag `b'RSLT'`. -/
def MSG_RESULT : List ℕ := [82, 83, 76, 84]

/-- `struct.pack('<H', n)`: two little-endian bytes of a 16-bit value
(the source raises for `n ≥ 65536`; theorems carry that bound). -/
def packLE16 (n : ℕ) : List ℕ := [n % 256, n / 256 % 256]

/-- `struct.unpack('<H', b)[0]` on an exactly-two-byte slice.  The
fallback branch is unreachable in `parse_message`, whose guard ensures
the slice has exactly two bytes. -/
def unpackLE16 (l : List ℕ) : ℕ :=
  match l with
  | [a, b] => a + 256 * b
  | _ => 0

/-- `XBeeBenchmark.create_message` (xbee_benchmark.py lines 83-94).
The Python method reads `self.node_id` and packs `time.time()`; here the
originator byte `nid` and the 8 packed timestamp bytes `ts` are explicit
parameters.  Layout: `b'$$' + msg_type + node_id + timestamp +
data_size + payload + b'##'`. -/
def create_message (msgType : List ℕ) (nid : ℕ) (ts : List ℕ)
    (dataSize : ℕ) (payload : List ℕ) : List ℕ :=
  MARKER_START ++ msgType ++ [nid] ++ ts ++ packLE16 dataSize ++ payload ++ MARKER_END

/-- The dictionary `parse_message` returns on success.  The timestamp is
kept as its 8 raw wire bytes (`struct.pack('<d', ·)` is injective on the
doubles the source produces, so byte equality is value equality). -/
structure Frame where
  type : List ℕ
  node_id : ℕ
  tsBytes : List ℕ
  data_size : ℕ
  payload : List ℕ
deriving DecidableEq, Repr

/-- `XBeeBenchmark.parse_message` (xbee_benchmark.py lines 96-122).
Returns `none` for the `return None` paths (missing markers, content
shorter than the 15-byte fixed header); `content = data[2:-2]`,
`payload = content[15:15+data_size]` (Python slicing truncates, it never
raises).  For `data_size = 0` the source returns `b''`, which equals
`content[15:15+0]`, so a single `take` models both branches. -/
def parse_message (data : List ℕ) : Option Frame :=
  if data.take 2 = MARKER_START ∧ data.drop (data.length - 2) = MARKER_END then
    if ((data.drop 2).take (data.length - 4)).length < 15 then none
    else
      some { type := ((data.drop 2).take (data.length - 4)).take 4
             node_id := (((data.drop 2).take (data.length - 4)).drop 4).headI
             tsBytes := (((data.drop 2).take (data.length - 4)).drop 5).take 8
             data_size := unpackLE16 ((((data.drop 2).take (data.length - 4)).drop 13).take 2)
             payload := (((data.drop 2).take (data.length - 4)).drop 15).take
               (unpackLE16 ((((data.drop 2).take (data.length - 4)).drop 13).take 2)) }
  else none

/-- The PING branch of `XBeeBenchmark.handle_received_message`
(xbee_benchmark.py lines 174-176): reply with
`send_message(MSG_PONG, message['data_size'], message['payload'])`,
which calls `create_message`; `create_message` always packs the
responder's current clock (`time.time()`) as the timestamp.  `selfNid`
is the responder's own `node_id` byte and `nowTs` the 8 bytes packed
from its clock at reply time. -/
def handle_ping (selfNid : ℕ) (nowTs : List ℕ) (m : Frame) : List ℕ :=
  create_message MSG_PONG selfNid nowTs m.data_size m.payload

/-- Bool test that `pat` is an initial segment of `l` (used to model
Python `bytes.find`). -/
def matchesAt (pat l : List ℕ) : Bool :=
  l.take pat.length == pat

/-- Scan `l` for the first occurrence of `pat`, reporting its index
offset by `i`. -/
def findSubAux (pat : List ℕ) : List ℕ → ℕ → Option ℕ
  | l, i =>
    if matchesAt pat l then some i
    else
      match l with
      | [] => none
      | _ :: t => findSubAux pat t (i + 1)

/-- Python `buffer.find(pat)` (first index of `pat` in `buf`, `none`
for `-1`). -/
def findSub (buf pat : List ℕ) : Option ℕ :=
  findSubAux pat buf 0

/-- Python `buffer.find(pat, start)`. -/
def findSubFrom (buf pat : List ℕ) (start : ℕ) : Option ℕ :=
  (findSub (buf.drop start) pat).map (· + start)

/-- One iteration of the frame-extraction loop in
`XBeeBenchmark.receive_messages` (xbee_benchmark.py lines 150-162):
while `b'$$' in buffer and b'##' in buffer`, take
`start = buffer.find(b'$$')`, `end = buffer.find(b'##', start)`, and on
success slice `message_data = buffer[start:end+2]`, keeping
`buffer[end+2:]` as the new buffer.  The frame's extent is found by
scanning the raw bytes for the end marker, not from the declared
length field. -/
def extract_step (buffer : List ℕ) : Option (List ℕ × List ℕ) :=
  match findSub buffer MARKER_START, findSub buffer MARKER_END with
  | some s, some _ =>
    match findSubFrom buffer MARKER_END s with
    | some e => some ((buffer.drop s).take (e + 2 - s), buffer.drop (e + 2))
    | none => none
  | _, _ => none

/-- `RFBandwidthTester.estimate_tx_time` (rf_latency_test.py lines
77-84): `size * 10` bits with framing, divided by the baud rate, plus a
1 ms guard margin.  Real arithmetic is modelled by `ℚ`. -/
def estimate_tx_time (size baud : ℕ) : ℚ :=
  ((size : ℚ) * 10) / (baud : ℚ) + 1 / 1000

/-- The adaptive ACK timeout of `test_as_base` (rf_latency_test.py line
207): `ack_wait_timeout = max(0.5, est_tx_s * 3 + 0.2)`. -/
def ack_wait_timeout (size baud : ℕ) : ℚ :=
  max (1 / 2) (estimate_tx_time size baud * 3 + 1 / 5)

/-- Loop body of `RFBandwidthTester.chunked_send` (rf_latency_test.py
lines 98-119).  `sendRes k chunk` is the value `send_data(chunk)`
returned by the serial port for the `k`-th write (negative on error,
as in the source).  The pair returned is `(total_written, number of
send_data calls made)`; the source returns only `total_written`, the
call count instruments "stops sending".  `fuel` bounds the loop; the
wrapper passes `data.length + 1`, enough for every positive chunk size
(the source's `while idx < len(data)` advances `idx` by at least one
byte per iteration). -/
def chunkedSendGo (sendRes : ℕ → List ℕ → ℤ) (chunkSize : ℕ) :
    ℕ → List ℕ → ℕ → ℤ → ℤ × ℕ
  | 0, _, callIdx, total => (total, callIdx)
  | fuel + 1, remaining, callIdx, total =>
    if remaining = [] then (total, callIdx)
    else
      if sendRes callIdx (remaining.take chunkSize) ≤ 0 then
        (total, callIdx + 1)
      else
        chunkedSendGo sendRes chunkSize fuel (remaining.drop chunkSize)
          (callIdx + 1) (total + sendRes callIdx (remaining.take chunkSize))

/-- `RFBandwidthTester.chunked_send` (rf_latency_test.py lines 98-119):
split `data` into chunks of at most `chunkSize` bytes, write each via
`send_data`, and stop at the first write reporting `written <= 0`. -/
def chunked_send (data : List ℕ) (chunkSize : ℕ)
    (sendRes : ℕ → List ℕ → ℤ) : ℤ × ℕ :=
  chunkedSendGo sendRes chunkSize (data.length + 1) data 0 0

/-- Concrete stream for the C6 counterexample: the first chunk write
reports 1 byte accepted (a short write for any chunk longer than one
byte), every later write accepts 2 bytes. -/
def shortWriteRes : ℕ → List ℕ → ℤ :=
  fun k _ => if k = 0 then 1 else 2

/-- Polling loop of `RFBandwidthTester.receive_data_with_timeout`
(rf_latency_test.py lines 130-138).  `schedule` lists the successive
loop iterations as pairs `(t, chunk)`: `t` is the `time.time_ns()`
value at the loop check and `chunk` what `self.ser.read` then yields
(the serial port returns at most the requested count, so the model
truncates `chunk` with `take`); after the schedule is exhausted the
deadline has passed.  Returns `(received, last_recv_ts, deadlineHit)`
where the Bool records which conjunct of the `while` condition failed
(`true` when the deadline, rather than a filled buffer, ended the
loop). -/
def recvGo (expected deadline : ℕ) :
    List (ℕ × List ℕ) → List ℕ → ℕ → List ℕ × ℕ × Bool
  | [], acc, last => (acc, last, true)
  | (t, chunk) :: rest, acc, last =>
    if t < deadline ∧ acc.length < expected then
      if (chunk.take (min (expected - acc.length) 4096)).isEmpty then
        recvGo expected deadline rest acc last
      else
        recvGo expected deadline rest
          (acc ++ chunk.take (min (expected - acc.length) 4096)) t
    else (acc, last, decide (¬ t < deadline))

/-- `RFBandwidthTester.receive_data_with_timeout` (rf_latency_test.py
lines 121-148), assuming an open port (the closed-port early return is
outside the claims).  `deadline_ns = start_ns + int(timeout * 1e9)` is
`startNs + timeoutNs`; when nothing arrived the source returns
`(b"", 0, 0)`, otherwise `elapsed = last_recv_ts - start_ns if
last_recv_ts else 0`.  The extra Bool is `recvGo`'s exit reason. -/
def receive_data_with_timeout (expected startNs timeoutNs : ℕ)
    (schedule : List (ℕ × List ℕ)) : (List ℕ × ℕ × ℕ) × Bool :=
  match recvGo expected (startNs + timeoutNs) schedule [] 0 with
  | (acc, last, dh) =>
    if acc.length = 0 then (([], 0, 0), dh)
    else ((acc, if last ≠ 0 then last - startNs else 0, last), dh)

/-- Serial-port actions performed by the handshake and test driver,
for stating which I/O a run performs. -/
inductive Act where
  | resetInput
  | write (data : List ℕ)
  | flush
  | readWait (maxBytes : ℕ) (timeoutMs : ℕ)
  | close
deriving DecidableEq, Repr

/-- The fixed handshake payload `b"SYNC_READY"` (rf_latency_test.py
line 151). -/
def SYNC_MSG : List ℕ := [83, 89, 78, 67, 95, 82, 69, 65, 68, 89]

/-- Base branch of `RFBandwidthTester.wait_for_sync` (rf_latency_test.py
lines 155-165): reset the input buffer, write the sync message once,
flush, then wait up to 5 s for `len(sync_msg)` bytes; succeed exactly
when the echoed bytes equal the sync message.  `received` is what
`receive_data_with_timeout` returned; the second component is the
ordered I/O trace. -/
def wait_for_sync_base (received : List ℕ) : Bool × List Act :=
  (received == SYNC_MSG,
    [Act.resetInput, Act.write SYNC_MSG, Act.flush,
      Act.readWait SYNC_MSG.length 5000])

/-- `RFBandwidthTester.run_test` after a successful `connect`, base mode
(rf_latency_test.py lines 334-362): if `wait_for_sync` fails the run
returns `False` and the `finally` block closes the port; only on
success do the benchmark's I/O actions (`test_as_base` and
`save_results`, abstracted as `baseTestActs`) happen. -/
def run_test_base (received : List ℕ) (baseTestActs : List Act) : Bool × List Act :=
  if (wait_for_sync_base received).1 then
    (true, (wait_for_sync_base received).2 ++ baseTestActs ++ [Act.close])
  else
    (false, (wait_for_sync_base received).2 ++ [Act.close])

/-- Latency recorded by a successful iteration of `test_as_base`
(rf_latency_test.py lines 230-235): `rtt_ns = ack_last_ts -
tx_start_ns`, replaced by `max(1, tx_end_ns - tx_start_ns) * 2` when
non-positive, then halved and scaled to milliseconds. -/
def iterLatencyMs (txStartNs txEndNs ackLastTs : ℕ) : ℚ :=
  (((if (ackLastTs : ℤ) - (txStartNs : ℤ) ≤ 0 then
      max 1 ((txEndNs : ℤ) - (txStartNs : ℤ)) * 2
    else (ackLastTs : ℤ) - (txStartNs : ℤ)) : ℚ) / 2) / 1000000

/-- Outcome of one iteration of the `for it in range(self.iterations)`
loop of `test_as_base` (rf_latency_test.py lines 189-250), abstracting
the serial I/O: the size header write failed (`continue`), the ACK did
not arrive or was wrong (`else` branch, nothing recorded), or a valid
ACK arrived with the given transmit-start, transmit-end and
last-ACK-byte timestamps. -/
inductive IterOutcome where
  | headerFail
  | noAck
  | ackOk (txStartNs txEndNs ackLastTs : ℕ)
deriving DecidableEq, Repr

/-- The latency samples `latencies_ms` accumulated by the first `n`
iterations of the `test_as_base` loop: an `ackOk` iteration appends its
computed latency, every other outcome appends nothing and the loop
continues. -/
def runSeries (outcomes : ℕ → IterOutcome) : ℕ → List ℚ
  | 0 => []
  | n + 1 =>
    runSeries outcomes n ++
      (match outcomes n with
       | IterOutcome.ackOk s e a => [iterLatencyMs s e a]
       | _ => [])

/-- Number of `ackOk` outcomes among the first `n` iterations. -/
def countAck (outcomes : ℕ → IterOutcome) : ℕ → ℕ
  | 0 => 0
  | n + 1 =>
    countAck outcomes n +
      (match outcomes n with
       | IterOutcome.ackOk _ _ _ => 1
       | _ => 0)

/-- Concrete outcome sequence for the C9 witness: iteration 0 succeeds,
every later iteration times out. -/
def wOutcomes : ℕ → IterOutcome :=
  fun k => if k = 0 then IterOutcome.ackOk 0 5 10 else IterOutcome.noAck

/-- Helper: taking exactly the length of the left part of an append. -/
theorem takeLenApp (a b : List ℕ) (n : ℕ) (h : a.length = n) :
    (a ++ b).take n = a := by
  subst h
  exact List.take_left a b

/-- Helper: dropping exactly the length of the left part of an append. -/
theorem dropLenApp (a b : List ℕ) (n : ℕ) (h : a.length = n) :
    (a ++ b).drop n = b := by
  subst h
  exact List.drop_left a b

/-- C1.  Frame codec round-trip: for every message type in the fixed
enumeration, every single-character (ASCII byte) originator id, every
8-byte packed timestamp and every payload of length 0..65535,
`parse_message (create_message ...)` recovers the type, the originator
byte, the timestamp bytes, the declared payload length and the payload
exactly. -/
theorem frame_roundtrip (mt : List ℕ) (nid : ℕ) (ts p : List ℕ)
    (hmt : mt ∈ [MSG_PING, MSG_PONG, MSG_DATA, MSG_SYNC, MSG_RESULT])
    (_hnid : nid < 128) (hts : ts.length = 8) (hp : p.length ≤ 65535) :
    parse_message (create_message mt nid ts p.length p) =
      some ⟨mt, nid, ts, p.length, p⟩ := by
  have hmt4 : mt.length = 4 := by
    fin_cases hmt <;> rfl
  set L := create_message mt nid ts p.length p with hL
  have hmid : L = MARKER_START ++ ((mt ++ [nid] ++ ts ++ packLE16 p.length ++ p) ++ MARKER_END) := by
    simp [hL, create_message, List.append_assoc]
  have hmidlen : (mt ++ [nid] ++ ts ++ packLE16 p.length ++ p).length = 15 + p.length := by
    simp [List.length_append, hmt4, hts, packLE16]
    omega
  have hlen : L.length = 19 + p.length := by
    rw [hmid]
    simp [List.length_append, MARKER_START, MARKER_END, hmt4, hts, packLE16]
    omega
  have hdrop2 : L.drop 2 = (mt ++ [nid] ++ ts ++ packLE16 p.length ++ p) ++ MARKER_END := by
    rw [hmid]
    exact dropLenApp _ _ 2 rfl
  have hcontent : (L.drop 2).take (L.length - 4) =
      mt ++ [nid] ++ ts ++ packLE16 p.length ++ p := by
    rw [hdrop2, hlen]
    apply takeLenApp
    omega
  have htake2 : L.take 2 = MARKER_START := by
    rw [hmid]
    exact takeLenApp _ _ 2 rfl
  have hfrontform : L =
      (MARKER_START ++ mt ++ [nid] ++ ts ++ packLE16 p.length ++ p) ++ MARKER_END := by
    simp [hL, create_message, List.append_assoc]
  have hdropEnd : L.drop (L.length - 2) = MARKER_END := by
    rw [hlen, hfrontform]
    exact dropLenApp _ _ _
      (by simp [MARKER_START, List.length_append, hmt4, hts, packLE16]; omega)
  set mid := mt ++ [nid] ++ ts ++ packLE16 p.length ++ p with hmiddef
  have hclen : mid.length = 15 + p.length := hmidlen
  have htype : mid.take 4 = mt := by
    have : mid = mt ++ ([nid] ++ ts ++ packLE16 p.length ++ p) := by
      simp [hmiddef, List.append_assoc]
    rw [this]
    exact takeLenApp _ _ 4 hmt4
  have hnode : (mid.drop 4).headI = nid := by
    have : mid = mt ++ ([nid] ++ ts ++ packLE16 p.length ++ p) := by
      simp [hmiddef, List.append_assoc]
    rw [this, dropLenApp _ _ 4 hmt4]
    rfl
  have hts' : (mid.drop 5).take 8 = ts := by
    have : mid = (mt ++ [nid]) ++ (ts ++ (packLE16 p.length ++ p)) := by
      simp [hmiddef, List.append_assoc]
    rw [this, dropLenApp _ _ 5 (by simp [hmt4]), takeLenApp _ _ 8 hts]
  have hsz : (mid.drop 13).take 2 = packLE16 p.length := by
    have : mid = (mt ++ [nid] ++ ts) ++ (packLE16 p.length ++ p) := by
      simp [hmiddef, List.append_assoc]
    rw [this, dropLenApp _ _ 13 (by simp [hmt4, hts]),
      takeLenApp _ _ 2 (by simp [packLE16])]
  have hup : unpackLE16 (packLE16 p.length) = p.length := by
    simp [packLE16, unpackLE16]
    omega
  have hpay : (mid.drop 15).take p.length = p := by
    have : mid = (mt ++ [nid] ++ ts ++ packLE16 p.length) ++ p := by
      simp [hmiddef, List.append_assoc]
    rw [this, dropLenApp _ _ 15 (by simp [hmt4, hts, packLE16]), List.take_length]
  rw [parse_message, if_pos ⟨htake2, hdropEnd⟩]
  rw [hcontent]
  rw [if_neg (by rw [hclen]; omega)]
  rw [htype, hnode, hts', hsz, hup, hpay]

/-- Witness for C1 at a concrete PING frame with a 3-byte payload. -/
theorem frame_roundtrip_witness :
    parse_message (create_message MSG_PING 65 [0, 0, 0, 0, 0, 0, 0, 0] 3 [1, 2, 3]) =
      some ⟨MSG_PING, 65, [0, 0, 0, 0, 0, 0, 0, 0], 3, [1, 2, 3]⟩ :=
  frame_roundtrip MSG_PING 65 [0, 0, 0, 0, 0, 0, 0, 0] [1, 2, 3]
    (by decide) (by decide) (by decide) (by decide)

/-- C2.  PONG timestamp semantics as the code implements them: the PONG
reply to a PING is built by `create_message`, which always packs the
responder's current clock, so the reply's decoded timestamp equals the
responder's clock bytes at reply time and differs from the PING's
original timestamp whenever the two differ.  Here a PING stamped with
bytes `[1,...,1]` is answered at responder clock bytes `[2,...,2]`:
the PONG carries the fresh timestamp, not the echoed one.  The
initiator's `latency = rx_time - message['timestamp']` therefore
subtracts the responder's send time, not the original send time. -/
theorem pong_fresh_timestamp :
    (parse_message (handle_ping 66 [2, 2, 2, 2, 2, 2, 2, 2]
        ⟨MSG_PING, 65, [1, 1, 1, 1, 1, 1, 1, 1], 2, [7, 8]⟩)).map Frame.tsBytes =
      some [2, 2, 2, 2, 2, 2, 2, 2] ∧
    ([2, 2, 2, 2, 2, 2, 2, 2] : List ℕ) ≠ [1, 1, 1, 1, 1, 1, 1, 1] := by
  decide

/-- C3.  The receive loop finds a frame's end by scanning for the
two-byte end marker, so a frame whose payload begins with `b'##'` is
truncated at the payload: for the encoded PING with declared size 2 and
payload `b'##'`, `extract_step` cuts the frame 2 bytes early and the
decoded frame has payload `b''` instead of `b'##'`. -/
theorem marker_scan_misframes :
    extract_step (create_message MSG_PING 65 [0, 0, 0, 0, 0, 0, 0, 0] 2 MARKER_END) =
      some ([36, 36, 80, 73, 78, 71, 65, 0, 0, 0, 0, 0, 0, 0, 0, 2, 0, 35, 35],
        [35, 35]) ∧
    parse_message [36, 36, 80, 73, 78, 71, 65, 0, 0, 0, 0, 0, 0, 0, 0, 2, 0, 35, 35] =
      some ⟨MSG_PING, 65, [0, 0, 0, 0, 0, 0, 0, 0], 2, []⟩ ∧
    ([] : List ℕ) ≠ MARKER_END := by
  decide

/-- C4 counterexample.  A frame with both markers, a full 15-byte
header, declared payload length 5 but zero available payload bytes is
not rejected: `parse_message` returns a frame whose payload was
silently truncated to the empty byte string. -/
theorem parse_length_mismatch_accepted :
    parse_message ([36, 36] ++ MSG_PING ++ [65] ++ [0, 0, 0, 0, 0, 0, 0, 0] ++
        [5, 0] ++ [35, 35]) =
      some ⟨MSG_PING, 65, [0, 0, 0, 0, 0, 0, 0, 0], 5, []⟩ ∧
    (5 : ℕ) ≠ ([] : List ℕ).length := by
  decide

/-- C4 amended.  `parse_message` returns the malformed signal (`none`)
when the start or end marker is absent or the content between the
markers is shorter than the 15-byte fixed header, and it never raises
(it is a total function); but a declared payload length that exceeds
the available content does not cause rejection: the parser still
returns a frame, with the payload truncated to the bytes available. -/
theorem parse_malformed_cases :
    (∀ data : List ℕ,
      ¬(data.take 2 = MARKER_START ∧ data.drop (data.length - 2) = MARKER_END) →
        parse_message data = none) ∧
    (∀ data : List ℕ,
      ((data.drop 2).take (data.length - 4)).length < 15 →
        parse_message data = none) ∧
    (∀ data : List ℕ,
      data.take 2 = MARKER_START → data.drop (data.length - 2) = MARKER_END →
      ¬((data.drop 2).take (data.length - 4)).length < 15 →
      ∃ f : Frame, parse_message data = some f ∧
        f.payload.length =
          min f.data_size (((data.drop 2).take (data.length - 4)).length - 15)) := by
  refine ⟨?_, ?_, ?_⟩
  · intro data h
    simp only [parse_message, if_neg h]
  · intro data h
    by_cases hm : data.take 2 = MARKER_START ∧ data.drop (data.length - 2) = MARKER_END
    · simp only [parse_message, if_pos hm, if_pos h]
    · simp only [parse_message, if_neg hm]
  · intro data h1 h2 h3
    unfold parse_message
    rw [if_pos ⟨h1, h2⟩, if_neg h3]
    refine ⟨_, rfl, ?_⟩
    simp [List.length_take, List.length_drop]

/-- Witness for C4's amended statement: a three-byte buffer with no
markers is rejected. -/
theorem parse_malformed_cases_witness : parse_message [1, 2, 3] = none :=
  parse_malformed_cases.1 [1, 2, 3] (by decide)

/-- C5 counterexample.  For baud 9600 and a 1024-byte payload the
derived ACK timeout is not 3.2 s. -/
theorem timeout_scenario_not_3_2 : ack_wait_timeout 1024 9600 ≠ 16 / 5 := by
  have h : ack_wait_timeout 1024 9600 = 3403 / 1000 := by
    rw [ack_wait_timeout, estimate_tx_time, max_eq_right (by norm_num)]
    norm_num
  rw [h]
  norm_num

/-- C5 amended.  The derived timeout is
`max(0.5, on_air_estimate * 3 + 0.2)`; for baud 9600 and payload 1024
the on-air estimate is exactly `3203/3000 ≈ 1.0677 s` (not 1.0668 s)
and the timeout is `max(0.5, 3.403) = 3.403 s` (not 3.2 s). -/
theorem timeout_scenario_exact :
    estimate_tx_time 1024 9600 = 3203 / 3000 ∧
    ack_wait_timeout 1024 9600 = max (1 / 2) ((3203 / 3000) * 3 + 1 / 5) ∧
    ack_wait_timeout 1024 9600 = 3403 / 1000 := by
  refine ⟨?_, ?_, ?_⟩
  · rw [estimate_tx_time]
    norm_num
  · rw [ack_wait_timeout, estimate_tx_time]
    norm_num
  · rw [ack_wait_timeout, estimate_tx_time, max_eq_right (by norm_num)]
    norm_num

/-- C6 counterexample.  With chunk size 2 and a 4-byte payload, the
first chunk write reports only 1 of 2 bytes accepted, yet
`chunked_send` does not stop: it makes a second write (call count 2,
not 1) and returns 3, not the partial count 1 of the short write. -/
theorem chunked_send_short_write_continues :
    chunked_send [9, 9, 9, 9] 2 shortWriteRes = (3, 2) ∧
    ¬chunked_send [9, 9, 9, 9] 2 shortWriteRes = (1, 1) := by
  decide

/-- C6 amended.  `chunked_send` stops sending immediately only when a
chunk write reports zero or a negative count (`written <= 0`) or
raises: it returns the bytes accepted so far and performs no further
writes (one call past `callIdx` in total).  A write reporting a
positive count smaller than the chunk's length does not stop the
operation: the loop advances past the whole chunk and continues (see
the counterexample). -/
theorem chunked_send_stops_nonpositive (sendRes : ℕ → List ℕ → ℤ)
    (chunkSize fuel : ℕ) (remaining : List ℕ) (callIdx : ℕ) (total : ℤ)
    (hrem : remaining ≠ [])
    (hw : sendRes callIdx (remaining.take chunkSize) ≤ 0) :
    chunkedSendGo sendRes chunkSize (fuel + 1) remaining callIdx total =
      (total, callIdx + 1) := by
  simp only [chunkedSendGo, if_neg hrem, if_pos hw]

/-- Witness for C6's amended statement: a stream whose first write
fails yields the partial count 0 after exactly one call. -/
theorem chunked_send_stops_nonpositive_witness :
    chunkedSendGo (fun _ _ => (0 : ℤ)) 2 5 [9, 9, 9, 9] 0 0 = (0, 1) :=
  chunked_send_stops_nonpositive (fun _ _ => (0 : ℤ)) 2 4 [9, 9, 9, 9] 0 0
    (by decide) (by decide)

/-- C7.  The derived ACK timeout is monotonically non-decreasing in the
byte count for a fixed positive baud rate, and monotonically
non-increasing in the baud rate for a fixed byte count. -/
theorem ack_wait_timeout_monotone :
    (∀ baud s₁ s₂ : ℕ, 0 < baud → s₁ ≤ s₂ →
        ack_wait_timeout s₁ baud ≤ ack_wait_timeout s₂ baud) ∧
    (∀ size b₁ b₂ : ℕ, 0 < b₁ → b₁ ≤ b₂ →
        ack_wait_timeout size b₂ ≤ ack_wait_timeout size b₁) := by
  constructor
  · intro baud s₁ s₂ hb hs
    have hbq : (0 : ℚ) < baud := by exact_mod_cast hb
    have hsq : (s₁ : ℚ) ≤ s₂ := by exact_mod_cast hs
    unfold ack_wait_timeout estimate_tx_time
    gcongr
  · intro size b₁ b₂ hb hbb
    have hbq : (0 : ℚ) < b₁ := by exact_mod_cast hb
    have hbbq : (b₁ : ℚ) ≤ b₂ := by exact_mod_cast hbb
    have hsq : (0 : ℚ) ≤ (size : ℚ) * 10 := by positivity
    unfold ack_wait_timeout estimate_tx_time
    gcongr

/-- Witness for C7 at concrete sizes and baud rates. -/
theorem ack_wait_timeout_monotone_witness :
    ack_wait_timeout 64 9600 ≤ ack_wait_timeout 1024 9600 ∧
    ack_wait_timeout 64 19200 ≤ ack_wait_timeout 64 9600 :=
  ⟨ack_wait_timeout_monotone.1 9600 64 1024 (by norm_num) (by norm_num),
    ack_wait_timeout_monotone.2 64 9600 19200 (by norm_num) (by norm_num)⟩

/-- C8.  When the echoed handshake bytes differ from the sync message
(timeout, partial echo, or garbage), the run fails and its whole I/O
trace is: one input-buffer reset, exactly one write of the fixed sync
message (no retry), one bounded 5 s read of 10 bytes, and the port
close — no benchmark measurement I/O happens, whatever the benchmark
would have done. -/
theorem handshake_failure_aborts (received : List ℕ) (baseTestActs : List Act)
    (h : received ≠ SYNC_MSG) :
    run_test_base received baseTestActs =
      (false, [Act.resetInput, Act.write SYNC_MSG, Act.flush,
        Act.readWait 10 5000, Act.close]) := by
  have h' : ¬received = [83, 89, 78, 67, 95, 82, 69, 65, 68, 89] := by
    simpa [SYNC_MSG] using h
  simp [run_test_base, wait_for_sync_base, SYNC_MSG, h']

/-- Witness for C8: an empty echo (nothing arrived before the timeout)
aborts the run with only the handshake trace and the close. -/
theorem handshake_failure_aborts_witness :
    run_test_base [] [Act.write MSG_DATA] =
      (false, [Act.resetInput, Act.write SYNC_MSG, Act.flush,
        Act.readWait 10 5000, Act.close]) :=
  handshake_failure_aborts [] [Act.write MSG_DATA] (by decide)

/-- C9.  The latency series is loss-tolerant: after `n` iterations the
sample list holds exactly one sample per `ackOk` iteration (every
timeout or failed-header iteration appends nothing), and an iteration
whose ACK times out leaves the sample list unchanged while the loop
still proceeds to the next iteration — the series is a total function
of the full iteration range, never aborted by a missing reply. -/
theorem series_loss_nonfatal (outcomes : ℕ → IterOutcome) (n : ℕ) :
    (runSeries outcomes n).length = countAck outcomes n ∧
    (outcomes n = IterOutcome.noAck →
      runSeries outcomes (n + 1) = runSeries outcomes n) := by
  constructor
  · induction n with
    | zero => rfl
    | succ k ih =>
      cases houtcome : outcomes k <;>
        simp [runSeries, countAck, houtcome, ih]
  · intro h
    simp [runSeries, h]

/-- Witness for C9: with one success then a timeout, iteration 1's
timeout leaves the sample list unchanged. -/
theorem series_loss_nonfatal_witness :
    runSeries wOutcomes 2 = runSeries wOutcomes 1 :=
  (series_loss_nonfatal wOutcomes 1).2 rfl

/-- Helper for C10: the receive loop never accumulates more than
`expected` bytes, and when it stops short of `expected` the exit reason
is the deadline. -/
theorem recvGo_bounds (expected deadline : ℕ) (schedule : List (ℕ × List ℕ))
    (acc : List ℕ) (last : ℕ) (hacc : acc.length ≤ expected) :
    (recvGo expected deadline schedule acc last).1.length ≤ expected ∧
    ((recvGo expected deadline schedule acc last).1.length < expected →
      (recvGo expected deadline schedule acc last).2.2 = true) := by
  induction schedule generalizing acc last with
  | nil =>
    refine ⟨hacc, fun _ => rfl⟩
  | cons hd rest ih =>
    obtain ⟨t, chunk⟩ := hd
    by_cases hcond : t < deadline ∧ acc.length < expected
    · rw [recvGo, if_pos hcond]
      by_cases hce : (chunk.take (min (expected - acc.length) 4096)).isEmpty
      · rw [if_pos hce]
        exact ih acc last hacc
      · rw [if_neg hce]
        apply ih
        have hclen : (chunk.take (min (expected - acc.length) 4096)).length ≤
            min (expected - acc.length) 4096 := by
          simp [List.length_take]
        have hlt := hcond.2
        simp only [List.length_append]
        omega
    · rw [recvGo, if_neg hcond]
      refine ⟨hacc, fun hlt => ?_⟩
      have hnt : ¬t < deadline := fun ht => hcond ⟨ht, hlt⟩
      simp [hnt]

/-- C10.  `receive_data_with_timeout` returns at most `expected` bytes;
it returns fewer than `expected` only when the deadline ended the
polling loop; and when zero bytes arrived before the deadline it
returns the triple `(b"", 0, 0)` — elapsed time and last-byte
timestamp are reported as 0 rather than the duration actually
waited. -/
theorem receive_bounds_and_zero (expected startNs timeoutNs : ℕ)
    (schedule : List (ℕ × List ℕ)) :
    (receive_data_with_timeout expected startNs timeoutNs schedule).1.1.length ≤ expected ∧
    ((receive_data_with_timeout expected startNs timeoutNs schedule).1.1.length < expected →
      (receive_data_with_timeout expected startNs timeoutNs schedule).2 = true) ∧
    ((receive_data_with_timeout expected startNs timeoutNs schedule).1.1 = [] →
      (receive_data_with_timeout expected startNs timeoutNs schedule).1 = ([], 0, 0)) := by
  have hmain := recvGo_bounds expected (startNs + timeoutNs) schedule [] 0 (by simp)
  rcases hgo : recvGo expected (startNs + timeoutNs) schedule [] 0 with ⟨acc, last, dh⟩
  rw [hgo] at hmain
  simp only [receive_data_with_timeout, hgo]
  by_cases hz : acc.length = 0
  · have hane : acc = [] := List.length_eq_zero.mp hz
    subst hane
    refine ⟨by simp, fun hlt => ?_, fun _ => by simp⟩
    simpa using hmain.2 (by simpa using hlt)
  · rw [if_neg hz]
    refine ⟨hmain.1, fun hlt => hmain.2 hlt, fun hae => ?_⟩
    exact absurd (by simp [show acc = [] from hae]) hz

/-- Witness for C10: an iteration at time 5 (before deadline 10) that
reads nothing, then deadline — the result is the `(b"", 0, 0)`
triple. -/
theorem receive_bounds_and_zero_witness :
    (receive_data_with_timeout 3 0 10 [(5, [])]).1 = ([], 0, 0) :=
  (receive_bounds_and_zero 3 0 10 [(5, [])]).2.2 (by decide)
